import Mathlib

/-!
Verification of the authorization core of the eduhelper backend.

The development shallowly embeds the Go source:
the rows of the `user_roles`, `role_permissions` and `permissions` tables
(migrations/1_init.up.sql), the repository queries over them
(internal/domain/repository/user_role_repository.go and
role_permission_repository.go), the JWT codec and identity-extraction
middleware (internal/lib/jwt and internal/http-server/middleware/jwt.go,
built on golang-jwt v5 semantics), the RBAC gate
(internal/http-server/middleware/permissions/permissions.go) and the login
handler (AuthHandler.Login).

Modelling conventions:
* machine integers (`int64`) are `Int`; Unix times are `Int` seconds;
* a Go `float64` claim value decoded from JSON carries, in this system,
  only integral values (ids and Unix timestamps), so it is modelled as an
  `Int` tagged `floatV`, distinct from the `intV` tag carried by values
  that never crossed JSON serialization;
* the HMAC signature is modelled as a perfect MAC: the signature value is
  the triple (algorithm, signed payload, key), and verification is
  equality of triples — any change of payload or key changes the value;
* fallible storage is an interface of `Except Unit` valued lookups
  (`.error ()` models a failed database round-trip), and the pure
  in-memory instance built from a `Store` never fails;
* `strings.ToLower` is modelled on the ASCII range (all permission names
  in this repository are ASCII).
-/

namespace EduHelper

/-- A row of the `permissions` table, as scanned by
`rolePermissionRepository.GetPermissionsByRoleID` (id and name; the
timestamp columns take no part in any claim). -/
structure Permission where
  permissionID : Int
  permissionName : String
deriving Repr, DecidableEq

/-- A row of the `user_roles` table (primary key (role_id, user_id)),
as scanned by `userRoleRepository.GetRolesByUserID`. -/
structure UserRole where
  roleID : Int
  userID : Int
deriving Repr, DecidableEq

/-- A row of the `role_permissions` table (primary key
(role_id, permission_id)). -/
structure RolePermission where
  roleID : Int
  permissionID : Int
deriving Repr, DecidableEq

/-- The persisted role graph: the three tables the authorization core
reads and writes. -/
structure Store where
  userRoles : List UserRole
  rolePermissions : List RolePermission
  permissions : List Permission
deriving Repr, DecidableEq

/-- `userRoleRepository.GetRolesByUserID`: SELECT the `user_roles` rows
with the given user_id. -/
def Store.GetRolesByUserID (s : Store) (userID : Int) : List UserRole :=
  s.userRoles.filter (fun ur => ur.userID == userID)

/-- `rolePermissionRepository.GetPermissionsByRoleID`: SELECT p.* FROM
permissions p INNER JOIN role_permissions rp ON
rp.permission_id = p.permission_id WHERE rp.role_id = the given role,
returning the stored rows verbatim (names keep their stored casing). -/
def Store.GetPermissionsByRoleID (s : Store) (roleID : Int) : List Permission :=
  (s.rolePermissions.filter (fun rp => rp.roleID == roleID)).flatMap
    (fun rp => s.permissions.filter (fun p => p.permissionID == rp.permissionID))

/-- `userRoleRepository.AssignRole`: INSERT INTO user_roles ... ON
CONFLICT (user_id, role_id) DO NOTHING. The conflict target is the
primary key of the table, so the insert is a no-op when the row exists. -/
def Store.AssignRole (s : Store) (userID roleID : Int) : Store :=
  if s.userRoles.any (fun ur => ur.userID == userID && ur.roleID == roleID) then s
  else { s with userRoles := s.userRoles ++ [{ roleID := roleID, userID := userID }] }

/-- `rolePermissionRepository.AssignPermission`: INSERT INTO
role_permissions ... ON CONFLICT (role_id, permission_id) DO NOTHING. -/
def Store.AssignPermission (s : Store) (roleID permissionID : Int) : Store :=
  if s.rolePermissions.any
      (fun rp => rp.roleID == roleID && rp.permissionID == permissionID) then s
  else { s with rolePermissions :=
          s.rolePermissions ++ [{ roleID := roleID, permissionID := permissionID }] }

/-- The fallible storage interface consumed by the RBAC middleware: the
two repository lookups, each able to fail (`.error ()` models a storage
error returned by the database driver). -/
structure RoleStore where
  GetRolesByUserID : Int → Except Unit (List UserRole)
  GetPermissionsByRoleID : Int → Except Unit (List Permission)

/-- The in-memory instance of the storage interface: the pure table
reads, never failing. -/
def Store.toRoleStore (s : Store) : RoleStore where
  GetRolesByUserID uid := .ok (s.GetRolesByUserID uid)
  GetPermissionsByRoleID rid := .ok (s.GetPermissionsByRoleID rid)

/-- `strings.ToLower`, mapping every character to lower case (on the
ASCII range used by this repository). -/
def strToLower (s : String) : String := String.mk (s.data.map Char.toLower)

/-- A dynamically typed JWT claim value (Go `interface\x7b\x7d` in a
`jwt.MapClaims`): an `int64` (as written by `jwt.NewToken` before
serialization), a `float64` (what every JSON number decodes to in
golang-jwt, carrying an integral value in this system), or any
non-numeric shape, represented by its string form. -/
inductive ClaimValue where
  | intV (i : Int)
  | floatV (x : Int)
  | strV (s : String)
deriving Repr, DecidableEq

/-- `jwt.MapClaims`: a claim map, with unique keys in every map this
system builds. -/
abbrev MapClaims := List (String × ClaimValue)

/-- Map lookup `claims[k]` returning the value when the key is present. -/
def claimsGet (m : MapClaims) (k : String) : Option ClaimValue :=
  (m.find? (fun kv => kv.1 == k)).map (fun kv => kv.2)

/-- JSON serialization followed by decoding turns every number claim into
a `float64`; other values are unchanged. -/
def ClaimValue.jsonDecode : ClaimValue → ClaimValue
  | .intV i => .floatV i
  | v => v

/-- The claim map as golang-jwt re-decodes it from the wire payload. -/
def jsonDecodeClaims (m : MapClaims) : MapClaims :=
  m.map (fun kv => (kv.1, kv.2.jsonDecode))

/-- The signing-method field of a token header: the three HMAC methods of
golang-jwt (`SigningMethodHMAC`), plus a representative asymmetric method
and the `none` method, both outside the HMAC family. -/
inductive SigAlg where
  | HS256
  | HS384
  | HS512
  | RS256
  | algNone
deriving Repr, DecidableEq

/-- The type assertion `token.Method.(*jwt.SigningMethodHMAC)` of the
middleware keyfunc: true exactly for the HMAC family. -/
def SigAlg.isHMAC : SigAlg → Bool
  | .HS256 => true
  | .HS384 => true
  | .HS512 => true
  | _ => false

/-- A MAC value over a token: modelled as the (method, payload, key)
triple itself, so that verification (equality of values) succeeds exactly
when the same payload was signed under the same method and key. -/
structure Sig where
  alg : SigAlg
  payload : MapClaims
  key : String
deriving Repr, DecidableEq

/-- Computing the MAC of a claim payload under a key. -/
def macSign (alg : SigAlg) (payload : MapClaims) (key : String) : Sig :=
  { alg := alg, payload := payload, key := key }

/-- A structurally well-formed JWT: header signing method, claim payload,
and attached signature. -/
structure Token where
  alg : SigAlg
  claims : MapClaims
  sig : Sig
deriving Repr, DecidableEq

/-- The bearer value of an Authorization header: either the serialization
of a well-formed JWT, or a string that does not decode as one. -/
inductive Wire where
  | tok (t : Token)
  | junk (s : String)
deriving Repr, DecidableEq

/-- The Authorization header as the middleware distinguishes it: missing
(`Header.Get` returns the empty string), present without the exact
`"Bearer "` scheme (for example `"Basic xyz"`), or carrying a bearer
value after the `"Bearer "` scheme. -/
inductive AuthHeader where
  | missing
  | otherScheme (s : String)
  | bearer (w : Wire)
deriving Repr, DecidableEq

/-- `strings.HasPrefix(authHeader, "Bearer ")` over the header model. -/
def AuthHeader.isBearer : AuthHeader → Bool
  | .bearer _ => true
  | _ => false

/-- The golang-jwt v5 error the middleware can observe from `jwt.Parse`
with the keyfunc of `JWTAuth`: decode failure, keyfunc rejection
(non-HMAC signing method), signature mismatch, expired token, or another
claims-validation failure. -/
inductive JwtError where
  | malformed
  | unverifiable
  | signatureInvalid
  | tokenExpired
  | invalidClaims
deriving Repr, DecidableEq

/-- `err.Error()` of the corresponding golang-jwt v5 sentinel errors. -/
def JwtError.text : JwtError → String
  | .malformed => "token is malformed"
  | .unverifiable => "token is unverifiable"
  | .signatureInvalid => "token signature is invalid"
  | .tokenExpired => "token has invalid claims: token is expired"
  | .invalidClaims => "token has invalid claims"

/-- `jwt.Parse(tokenString, keyfunc)` as called by `JWTAuth` (jwt.go
lines 30-35), with golang-jwt v5 order of checks: decode the wire form,
run the keyfunc (which rejects every non-HMAC signing method), verify
the signature against the secret, then validate the claims — `exp`
passes only when the current time is strictly before it, and a
non-numeric `exp` is a claims-validation failure. A token without an
`exp` claim passes claims validation. On success the claims are the
JSON-decoded payload. -/
def jwtParse (w : Wire) (secret : String) (now : Int) : Except JwtError MapClaims :=
  match w with
  | .junk _ => .error .malformed
  | .tok t =>
    if !t.alg.isHMAC then .error .unverifiable
    else if t.sig ≠ macSign t.alg t.claims secret then .error .signatureInvalid
    else
      match claimsGet (jsonDecodeClaims t.claims) "exp" with
      | none => .ok (jsonDecodeClaims t.claims)
      | some (.floatV e) =>
          if now < e then .ok (jsonDecodeClaims t.claims) else .error .tokenExpired
      | some (.intV e) =>
          if now < e then .ok (jsonDecodeClaims t.claims) else .error .tokenExpired
      | some (.strV _) => .error .invalidClaims

/-- Outcome of the identity-extraction middleware for one request:
`http.Error` with a status and message, or attach the decoded claims to
the request context and call the wrapped handler. -/
inductive AuthOutcome where
  | httpError (status : Nat) (msg : String)
  | proceed (claims : MapClaims)
deriving Repr, DecidableEq

/-- `JWTAuth` (internal/http-server/middleware/jwt.go): require the
`"Bearer "` scheme, parse and validate the token, answering 401 with
`"Token is expired"` when the parse error is `jwt.ErrTokenExpired` and
401 with `"Invalid token: "` plus the error text otherwise; on success
run the redundant manual expiry check (`claims["exp"].(float64)`, which
only fires on a `float64` claim) and finally attach the claims for the
wrapped handler. The `!token.Valid` and claims type-assertion branches
of the source are unreachable when `jwt.Parse` returns no error and are
not modelled. -/
def JWTAuth (secret : String) (now : Int) (h : AuthHeader) : AuthOutcome :=
  match h with
  | .bearer w =>
    match jwtParse w secret now with
    | .error e =>
        if e = .tokenExpired then .httpError 401 "Token is expired"
        else .httpError 401 ("Invalid token: " ++ e.text)
    | .ok claims =>
        match claimsGet claims "exp" with
        | some (.floatV e) =>
            if e < now then .httpError 401 "Token is expired" else .proceed claims
        | _ => .proceed claims
  | _ => .httpError 401 "Missing or invalid Authorization header"

/-- The subject: id, unique email, bcrypt password hash (modelled as an
opaque string). -/
structure User where
  userID : Int
  email : String
  password : String
deriving Repr, DecidableEq

/-- `jwt.NewToken(user, duration, jwtSecret)` (internal/lib/jwt): an
HS256 token whose claims are the user id, the email, and
`exp = now + duration` (Unix seconds), signed over those claims with the
secret. -/
def NewToken (user : User) (duration : Int) (jwtSecret : String) (now : Int) : Token :=
  let claims : MapClaims :=
    [("id", .intV user.userID), ("email", .strV user.email),
     ("exp", .intV (now + duration))]
  { alg := .HS256, claims := claims, sig := macSign .HS256 claims jwtSecret }

/-- Outcome of the RBAC gate for one request: write a status and a JSON
error body, or pass control to the wrapped handler. -/
inductive GateResult where
  | respond (status : Nat) (body : String)
  | callNext
deriving Repr, DecidableEq

/-- The `switch v := idClaim.(type)` of `RequirePermission`: an `int64`
or `float64` claim yields the carried value; any other shape leaves
`userID` at its zero value, because the switch has no default case. -/
def extractUserID : ClaimValue → Int
  | .intV v => v
  | .floatV v => v
  | .strV _ => 0

/-- The permission-collecting loop of `RequirePermission` (permissions.go
lines 62-74): for each role of the subject, fetch its permissions
(returning the storage error of the first failing fetch, as the early
`return` does) and collect the lower-cased permission names; the second
component counts the `GetPermissionsByRoleID` calls made. -/
def buildPermsSet (store : RoleStore) :
    List UserRole → (Except Unit (List String)) × Nat
  | [] => (.ok [], 0)
  | r :: rest =>
    match store.GetPermissionsByRoleID r.roleID with
    | .error e => (.error e, 1)
    | .ok perms =>
      match buildPermsSet store rest with
      | (.error e, n) => (.error e, n + 1)
      | (.ok acc, n) =>
          (.ok (perms.map (fun p => strToLower p.permissionName) ++ acc), n + 1)

/-- `RBACMiddleware.RequirePermission` (permissions.go lines 35-84), with
a count of storage round-trips: 401 `unauthorized` when the claims carry
no id; otherwise extract the user id, fetch its roles (500
`internal error` on failure), collect the lower-cased permission names of
every role (500 on any failing fetch), then allow exactly when the
lower-cased required permission is a member, answering 403
`permission denied` otherwise. -/
def RequirePermissionCount (permissionName : String) (store : RoleStore)
    (claims : MapClaims) : GateResult × Nat :=
  match claimsGet claims "id" with
  | none => (.respond 401 "unauthorized", 0)
  | some idClaim =>
    match store.GetRolesByUserID (extractUserID idClaim) with
    | .error _ => (.respond 500 "internal error", 1)
    | .ok roles =>
      match buildPermsSet store roles with
      | (.error _, n) => (.respond 500 "internal error", 1 + n)
      | (.ok permsSet, n) =>
        if strToLower permissionName ∈ permsSet then (.callNext, 1 + n)
        else (.respond 403 "permission denied", 1 + n)

/-- The decision of the RBAC gate, forgetting the storage-call count. -/
def RequirePermission (permissionName : String) (store : RoleStore)
    (claims : MapClaims) : GateResult :=
  (RequirePermissionCount permissionName store claims).1

/-- Outcome of the composed middleware pipeline: an error response
written by either middleware, or the guarded handler running. -/
inductive PipeResult where
  | errorResp (status : Nat) (msg : String)
  | handlerRun
deriving Repr, DecidableEq

/-- The route pipeline of a guarded endpoint: `JWTAuth` wrapping
`RequirePermission` wrapping the handler, paired with the number of
storage lookups performed. -/
def pipeline (secret : String) (now : Int) (store : RoleStore)
    (permissionName : String) (h : AuthHeader) : PipeResult × Nat :=
  match JWTAuth secret now h with
  | .httpError st m => (.errorResp st m, 0)
  | .proceed claims =>
    match RequirePermissionCount permissionName store claims with
    | (.respond st b, n) => (.errorResp st b, n)
    | (.callNext, n) => (.handlerRun, n)

/-- The lower-cased permission names contributed by a list of role rows,
resolved against the pure store. -/
def resolvedPermsList (s : Store) (roles : List UserRole) : List String :=
  roles.flatMap
    (fun r => (s.GetPermissionsByRoleID r.roleID).map (fun p => strToLower p.permissionName))

/-- The effective permission set the gate resolves for a subject against
the pure store: the lower-cased names of all permissions of all roles of
the subject. -/
def effectivePermissions (s : Store) (uid : Int) : List String :=
  resolvedPermsList s (s.GetRolesByUserID uid)

/-- Modelled from the spec: the package `internal/lib/api/response` is
absent from src (only its callers are). Section 7 of the spec: every
denial path returns a small JSON object with a human-readable `error`
string; `resp.Error(msg)` builds that object. -/
structure Response where
  error : String
deriving Repr, DecidableEq

/-- `resp.Error(msg)`. -/
def respError (msg : String) : Response := { error := msg }

/-- `models.LoginRequest`: the decoded login body. -/
structure LoginRequest where
  email : String
  password : String
deriving Repr, DecidableEq

/-- Outcome of the login handler: an error response with a status and
JSON body, or a signed token rendered to the client. -/
inductive LoginResult where
  | failure (status : Nat) (body : Response)
  | tokenIssued (t : Token)
deriving Repr, DecidableEq

/-- The user lookup consumed by the login handler:
`GetClientByEmail` may fail (`.error ()`), find no user (`.ok none`), or
return the stored user. -/
structure UserStore where
  GetClientByEmail : String → Except Unit (Option User)

/-- `AuthHandler.Login` on a decoded request: a failed or empty user
lookup answers 401 `invalid credentials`; a bcrypt mismatch between the
stored hash and the presented password answers the same 401; otherwise a
24-hour token is issued for the user. `bcryptMatch hash password` models
`bcrypt.CompareHashAndPassword` returning no error. The token-signing
failure branch of the source (500) cannot fire in the model, where
signing is total. -/
def Login (userStore : UserStore) (bcryptMatch : String → String → Bool)
    (jwtSecret : String) (now : Int) (req : LoginRequest) : LoginResult :=
  match userStore.GetClientByEmail req.email with
  | .error _ => .failure 401 (respError "invalid credentials")
  | .ok none => .failure 401 (respError "invalid credentials")
  | .ok (some user) =>
    if bcryptMatch user.password req.password then
      .tokenIssued (NewToken user (24 * 3600) jwtSecret now)
    else
      .failure 401 (respError "invalid credentials")

/-! Helper lemmas shared by the claim theorems. -/

/-- The role lookup of the pure storage instance. -/
theorem toRoleStore_roles (s : Store) (uid : Int) :
    s.toRoleStore.GetRolesByUserID uid = .ok (s.GetRolesByUserID uid) := rfl

/-- The permission lookup of the pure storage instance. -/
theorem toRoleStore_perms (s : Store) (rid : Int) :
    s.toRoleStore.GetPermissionsByRoleID rid = .ok (s.GetPermissionsByRoleID rid) := rfl

/-- Unfolding claim-map lookup over a cons cell. -/
theorem claimsGet_cons (k1 : String) (v1 : ClaimValue) (rest : MapClaims) (k : String) :
    claimsGet ((k1, v1) :: rest) k = if k1 = k then some v1 else claimsGet rest k := by
  by_cases h : k1 = k
  · simp [claimsGet, List.find?_cons_of_pos, h]
  · simp [claimsGet, List.find?_cons_of_neg, h]

/-- Lookup in a JSON-decoded claim map decodes the looked-up value. -/
theorem claimsGet_jsonDecode (m : MapClaims) (k : String) :
    claimsGet (jsonDecodeClaims m) k = (claimsGet m k).map ClaimValue.jsonDecode := by
  induction m with
  | nil => rfl
  | cons kv rest ih =>
    rcases kv with ⟨k1, v1⟩
    simp only [jsonDecodeClaims, List.map_cons] at ih ⊢
    rw [claimsGet_cons, claimsGet_cons]
    by_cases h : k1 = k
    · simp [h]
    · simp only [h, if_false]
      exact ih

/-- Against the pure store the collecting loop never fails and collects
exactly the lower-cased names of all permissions of all listed roles,
with one storage call per role. -/
theorem buildPermsSet_pure (s : Store) (roles : List UserRole) :
    buildPermsSet s.toRoleStore roles = (.ok (resolvedPermsList s roles), roles.length) := by
  induction roles with
  | nil => rfl
  | cons r rest ih =>
    simp [buildPermsSet, toRoleStore_perms, ih, resolvedPermsList]

/-- The collecting loop fails exactly when the permission fetch of some
listed role fails. -/
theorem buildPermsSet_error_iff (store : RoleStore) (roles : List UserRole) :
    (buildPermsSet store roles).1 = .error () ↔
      ∃ r ∈ roles, store.GetPermissionsByRoleID r.roleID = .error () := by
  induction roles with
  | nil => simp [buildPermsSet]
  | cons r rest ih =>
    cases hr : store.GetPermissionsByRoleID r.roleID with
    | error e =>
      cases e
      simp [buildPermsSet, hr]
    | ok perms =>
      cases hrest : buildPermsSet store rest with
      | mk res n =>
        cases res with
        | error e =>
          cases e
          have : (buildPermsSet store rest).1 = .error () := by rw [hrest]
          simp only [buildPermsSet, hr, hrest]
          simp only [this, true_iff] at ih
          simp [List.exists_mem_cons_iff, ih]
        | ok acc =>
          have hok : (buildPermsSet store rest).1 = .ok acc := by rw [hrest]
          simp only [buildPermsSet, hr, hrest]
          constructor
          · intro h
            exact absurd h (by simp)
          · intro h
            rcases h with ⟨r2, hmem, herr⟩
            rcases List.mem_cons.mp hmem with h1 | h2
            · rw [h1] at herr
              rw [herr] at hr
              cases hr
            · have : (buildPermsSet store rest).1 = .error () := ih.mpr ⟨r2, h2, herr⟩
              rw [hok] at this
              cases this

/-- Membership in the resolved permission list is membership in the
permissions of some listed role, lower-cased. -/
theorem mem_resolvedPermsList (s : Store) (roles : List UserRole) (x : String) :
    x ∈ resolvedPermsList s roles ↔
      ∃ r ∈ roles,
        x ∈ (s.GetPermissionsByRoleID r.roleID).map (fun p => strToLower p.permissionName) := by
  simp [resolvedPermsList, List.mem_flatMap]

/-- On the pure store, a request whose claims carry an id is decided by
membership of the lower-cased required permission in the effective
permission set of the extracted user id. -/
theorem RequirePermission_pure (s : Store) (claims : MapClaims) (idc : ClaimValue)
    (permissionName : String) (hid : claimsGet claims "id" = some idc) :
    RequirePermission permissionName s.toRoleStore claims =
      if strToLower permissionName ∈ effectivePermissions s (extractUserID idc) then
        .callNext
      else
        .respond 403 "permission denied" := by
  simp only [RequirePermission, RequirePermissionCount, hid, toRoleStore_roles,
    buildPermsSet_pure, effectivePermissions]
  by_cases hm :
      strToLower permissionName ∈ resolvedPermsList s (s.GetRolesByUserID (extractUserID idc))
  · simp [hm]
  · simp [hm]

/-- When the role lookup fails, the gate answers 500 internal error. -/
theorem RequirePermission_roles_error (permissionName : String) (store : RoleStore)
    (claims : MapClaims) (idc : ClaimValue) (hid : claimsGet claims "id" = some idc)
    (hroles : store.GetRolesByUserID (extractUserID idc) = .error ()) :
    RequirePermission permissionName store claims = .respond 500 "internal error" := by
  simp only [RequirePermission, RequirePermissionCount, hid, hroles]

/-- When the role lookup succeeds, the gate is decided by the collecting
loop over the returned roles. -/
theorem RequirePermission_roles_ok (permissionName : String) (store : RoleStore)
    (claims : MapClaims) (idc : ClaimValue) (roles : List UserRole)
    (hid : claimsGet claims "id" = some idc)
    (hroles : store.GetRolesByUserID (extractUserID idc) = .ok roles) :
    RequirePermission permissionName store claims =
      match (buildPermsSet store roles).1 with
      | .error _ => .respond 500 "internal error"
      | .ok permsSet =>
        if strToLower permissionName ∈ permsSet then .callNext
        else .respond 403 "permission denied" := by
  simp only [RequirePermission, RequirePermissionCount, hid, hroles]
  cases hbp : buildPermsSet store roles with
  | mk res n =>
    cases res with
    | error e => rfl
    | ok ps =>
      by_cases hm : strToLower permissionName ∈ ps
      · simp [hm]
      · simp [hm]

/-- When every listed role contributes no permission, the collecting
loop returns the empty set. -/
theorem buildPermsSet_all_empty (store : RoleStore) (roles : List UserRole)
    (h : ∀ r ∈ roles, store.GetPermissionsByRoleID r.roleID = .ok []) :
    (buildPermsSet store roles).1 = .ok [] := by
  induction roles with
  | nil => rfl
  | cons r rest ih =>
    have hr : store.GetPermissionsByRoleID r.roleID = .ok [] :=
      h r (List.mem_cons_self r rest)
    have hrest : (buildPermsSet store rest).1 = .ok [] :=
      ih (fun r2 h2 => h r2 (List.mem_cons_of_mem r h2))
    cases hbp : buildPermsSet store rest with
    | mk res n =>
      rw [hbp] at hrest
      simp only at hrest
      subst hrest
      simp [buildPermsSet, hr, hbp]

/-- `Store.AssignRole` leaves every effective permission in place: the
added assignment row can only contribute further permissions. -/
theorem effectivePermissions_AssignRole_superset (s : Store) (uid c : Int) (x : String)
    (hx : x ∈ effectivePermissions s uid) :
    x ∈ effectivePermissions (s.AssignRole uid c) uid := by
  unfold Store.AssignRole
  split
  · exact hx
  · unfold effectivePermissions at hx ⊢
    rw [mem_resolvedPermsList] at hx ⊢
    rcases hx with ⟨r, hr, hmem⟩
    refine ⟨r, ?_, hmem⟩
    unfold Store.GetRolesByUserID at hr ⊢
    simp only [List.filter_append]
    exact List.mem_append_left _ hr

/-! Claim theorems. -/

/-- C1: the gate resolves the effective permission set of a subject as
exactly the union, over all roles currently assigned to the subject, of
the (lower-cased) permissions granted to each role; for a subject whose
assigned roles are exactly [A, B] the set is permissions(A) ∪
permissions(B); the gate allows exactly on membership of the required
permission in that union; and assigning an additional role never removes
a member from the resolved set. -/
theorem C1_additive_permission_union (s : Store) (uid : Int) :
    (∀ x : String, x ∈ effectivePermissions s uid ↔
      ∃ ur ∈ s.GetRolesByUserID uid,
        x ∈ (s.GetPermissionsByRoleID ur.roleID).map (fun p => strToLower p.permissionName))
    ∧ (∀ a b : UserRole, s.GetRolesByUserID uid = [a, b] →
        ∀ x : String, (x ∈ effectivePermissions s uid ↔
          (x ∈ (s.GetPermissionsByRoleID a.roleID).map (fun p => strToLower p.permissionName) ∨
           x ∈ (s.GetPermissionsByRoleID b.roleID).map (fun p => strToLower p.permissionName))))
    ∧ (∀ claims : MapClaims, ∀ idc : ClaimValue, ∀ permissionName : String,
        claimsGet claims "id" = some idc → extractUserID idc = uid →
        (RequirePermission permissionName s.toRoleStore claims = .callNext ↔
          strToLower permissionName ∈ effectivePermissions s uid))
    ∧ (∀ c : Int, ∀ x : String, x ∈ effectivePermissions s uid →
        x ∈ effectivePermissions (s.AssignRole uid c) uid) := by
  refine ⟨?_, ?_, ?_, ?_⟩
  · intro x
    exact mem_resolvedPermsList s (s.GetRolesByUserID uid) x
  · intro a b hab x
    unfold effectivePermissions
    rw [hab]
    simp [resolvedPermsList]
  · intro claims idc permissionName hid hext
    rw [RequirePermission_pure s claims idc permissionName hid, hext]
    by_cases hm : strToLower permissionName ∈ effectivePermissions s uid
    · simp [hm]
    · simp [hm]
  · intro c x hx
    exact effectivePermissions_AssignRole_superset s uid c x hx

/-- C1 witness: in a store where role 10 is assigned to subject 7 and
granted the permission named User:List, the gate allows a request of
subject 7 requiring user:list. -/
theorem C1_additive_permission_union_witness :
    RequirePermission "user:list"
        (Store.toRoleStore
          { userRoles := [{ roleID := 10, userID := 7 }],
            rolePermissions := [{ roleID := 10, permissionID := 1 }],
            permissions := [{ permissionID := 1, permissionName := "User:List" }] })
        [("id", ClaimValue.intV 7)] = .callNext := by
  have h :=
    (C1_additive_permission_union
      { userRoles := [{ roleID := 10, userID := 7 }],
        rolePermissions := [{ roleID := 10, permissionID := 1 }],
        permissions := [{ permissionID := 1, permissionName := "User:List" }] } 7).2.2.1
      [("id", ClaimValue.intV 7)] (ClaimValue.intV 7) "user:list" rfl rfl
  exact h.mpr (by decide)

/-- C2: for a token carrying an embedded expiry, validation in the
identity middleware hands the decoded claims to the wrapped handler
exactly when the signing method is in the expected symmetric-MAC (HMAC)
family, the signature verifies under the current signing secret, and the
embedded expiry is strictly in the future at check time; failing any one
of the three yields a validation failure. -/
theorem C2_validate_iff_all_checks (t : Token) (secret : String) (now e : Int)
    (hexp : claimsGet t.claims "exp" = some (.intV e)) :
    JWTAuth secret now (.bearer (.tok t)) = .proceed (jsonDecodeClaims t.claims) ↔
      (t.alg.isHMAC = true ∧ t.sig = macSign t.alg t.claims secret ∧ now < e) := by
  have hdec : claimsGet (jsonDecodeClaims t.claims) "exp" = some (.floatV e) := by
    rw [claimsGet_jsonDecode, hexp]; rfl
  constructor
  · intro hp
    by_cases h1 : t.alg.isHMAC = true
    · by_cases h2 : t.sig = macSign t.alg t.claims secret
      · by_cases h3 : now < e
        · exact ⟨h1, h2, h3⟩
        · exfalso
          simp [JWTAuth, jwtParse, h1, h2, hdec, h3] at hp
      · exfalso
        simp [JWTAuth, jwtParse, h1, h2] at hp
    · exfalso
      simp [JWTAuth, jwtParse, h1] at hp
  · rintro ⟨h1, h2, h3⟩
    have h4 : ¬ (e < now) := by omega
    simp [JWTAuth, jwtParse, h1, h2, hdec, h3, h4]

/-- C2 witness: a concrete HS256 token with expiry 100 validates at time
50 under its signing secret, handing over the decoded claims. -/
theorem C2_validate_iff_all_checks_witness :
    JWTAuth "s" 50
        (.bearer (.tok
          { alg := .HS256, claims := [("id", ClaimValue.intV 1), ("exp", ClaimValue.intV 100)],
            sig := macSign .HS256 [("id", ClaimValue.intV 1), ("exp", ClaimValue.intV 100)] "s" })) =
      .proceed [("id", ClaimValue.floatV 1), ("exp", ClaimValue.floatV 100)] := by
  have h :=
    (C2_validate_iff_all_checks
      { alg := .HS256, claims := [("id", ClaimValue.intV 1), ("exp", ClaimValue.intV 100)],
        sig := macSign .HS256 [("id", ClaimValue.intV 1), ("exp", ClaimValue.intV 100)] "s" }
      "s" 50 100 rfl).mpr ⟨rfl, rfl, by decide⟩
  exact h

/-- C3: for an authenticated request (claims carrying an id): zero
assigned roles, or roles granting zero permissions, are answered 403
permission denied; a failure of either storage lookup is answered 500
internal error; and the gate answers 500 exactly when a lookup failed,
so the two outcomes are never conflated. -/
theorem C3_error_vs_deny (store : RoleStore) (claims : MapClaims) (idc : ClaimValue)
    (permissionName : String) (hid : claimsGet claims "id" = some idc) :
    (store.GetRolesByUserID (extractUserID idc) = .ok [] →
      RequirePermission permissionName store claims = .respond 403 "permission denied")
    ∧ (∀ roles, store.GetRolesByUserID (extractUserID idc) = .ok roles →
        (∀ r ∈ roles, store.GetPermissionsByRoleID r.roleID = .ok []) →
        RequirePermission permissionName store claims = .respond 403 "permission denied")
    ∧ (RequirePermission permissionName store claims = .respond 500 "internal error" ↔
        (store.GetRolesByUserID (extractUserID idc) = .error () ∨
          ∃ roles, store.GetRolesByUserID (extractUserID idc) = .ok roles ∧
            ∃ r ∈ roles, store.GetPermissionsByRoleID r.roleID = .error ()))
    ∧ (RequirePermission permissionName store claims = .respond 403 "permission denied" →
        store.GetRolesByUserID (extractUserID idc) ≠ .error () ∧
          ∀ roles, store.GetRolesByUserID (extractUserID idc) = .ok roles →
            ∀ r ∈ roles, store.GetPermissionsByRoleID r.roleID ≠ .error ()) := by
  cases hroles : store.GetRolesByUserID (extractUserID idc) with
  | error e =>
    cases e
    rw [RequirePermission_roles_error permissionName store claims idc hid hroles]
    refine ⟨fun h => by simp at h, fun roles h => by simp at h, ?_, fun h => by simp at h⟩
    simp
  | ok roles =>
    rw [RequirePermission_roles_ok permissionName store claims idc roles hid hroles]
    cases hbp : (buildPermsSet store roles).1 with
    | error e =>
      cases e
      have hex : ∃ r ∈ roles, store.GetPermissionsByRoleID r.roleID = .error () :=
        (buildPermsSet_error_iff store roles).mp hbp
      refine ⟨?_, ?_, ?_, fun h => by simp at h⟩
      · intro h
        have hr : roles = [] := by simpa using h
        subst hr
        simp [buildPermsSet] at hbp
      · intro roles2 h2 hall
        have hr : roles2 = roles := by simpa using h2.symm
        subst hr
        have hempty := buildPermsSet_all_empty store roles2 hall
        rw [hbp] at hempty
        simp at hempty
      · constructor
        · intro _
          exact Or.inr ⟨roles, rfl, hex⟩
        · intro _
          rfl
    | ok ps =>
      have hnoerr : ¬ ∃ r ∈ roles, store.GetPermissionsByRoleID r.roleID = .error () := by
        intro hex2
        have herr := (buildPermsSet_error_iff store roles).mpr hex2
        rw [hbp] at herr
        simp at herr
      refine ⟨?_, ?_, ?_, ?_⟩
      · intro h
        have hr : roles = [] := by simpa using h
        subst hr
        have hps : ps = [] := by
          have h0 : (buildPermsSet store ([] : List UserRole)).1 = .ok [] := rfl
          rw [hbp] at h0
          simpa using h0.symm
        subst hps
        simp
      · intro roles2 h2 hall
        have hr : roles2 = roles := by simpa using h2.symm
        subst hr
        have hempty := buildPermsSet_all_empty store roles2 hall
        rw [hbp] at hempty
        have hps : ps = [] := by simpa using hempty.symm
        subst hps
        simp
      · constructor
        · intro h
          by_cases hm : strToLower permissionName ∈ ps
          · simp [hm] at h
          · simp [hm] at h
        · rintro (h | ⟨roles2, h2, hex2⟩)
          · simp at h
          · have hr : roles2 = roles := by simpa using h2.symm
            subst hr
            exact absurd hex2 hnoerr
      · intro _
        refine ⟨by simp, ?_⟩
        intro roles2 h2 r hr herr
        have hr2 : roles2 = roles := by simpa using h2.symm
        subst hr2
        exact hnoerr ⟨r, hr, herr⟩

/-- C3 witness: with a storage whose role lookup fails, the gate answers
a concrete authenticated request with 500 internal error. -/
theorem C3_error_vs_deny_witness :
    RequirePermission "user:list"
        { GetRolesByUserID := fun _ => .error (), GetPermissionsByRoleID := fun _ => .ok [] }
        [("id", ClaimValue.intV 1)] = .respond 500 "internal error" := by
  exact (C3_error_vs_deny
    { GetRolesByUserID := fun _ => .error (), GetPermissionsByRoleID := fun _ => .ok [] }
    [("id", ClaimValue.intV 1)] (ClaimValue.intV 1) "user:list" rfl).2.2.1.mpr (Or.inl rfl)

/-- C4: a token produced by `NewToken`, validated with the same secret at
any time before the lifetime elapses, is accepted, and the decoded claims
carry a subject id equal to the id of the original user (as the numeric
value the gate extracts). -/
theorem C4_issue_validate_roundtrip (user : User) (duration now t : Int) (secret : String)
    (h : t < now + duration) :
    JWTAuth secret t (.bearer (.tok (NewToken user duration secret now))) =
      .proceed (jsonDecodeClaims (NewToken user duration secret now).claims)
    ∧ claimsGet (jsonDecodeClaims (NewToken user duration secret now).claims) "id" =
        some (.floatV user.userID)
    ∧ extractUserID (.floatV user.userID) = user.userID := by
  refine ⟨?_, ?_, rfl⟩
  · have h4 : ¬ (now + duration < t) := by omega
    simp [JWTAuth, jwtParse, NewToken, jsonDecodeClaims, claimsGet, ClaimValue.jsonDecode,
      macSign, h, h4, SigAlg.isHMAC, List.find?]
  · simp [NewToken, jsonDecodeClaims, claimsGet, ClaimValue.jsonDecode, List.find?]

/-- C4 witness: a token issued at time 0 for 86400 seconds validates at
time 100 and yields the id of the issuing user. -/
theorem C4_issue_validate_roundtrip_witness :
    JWTAuth "secret" 100
        (.bearer (.tok (NewToken { userID := 9, email := "a@x.com", password := "h" } 86400 "secret" 0))) =
      .proceed (jsonDecodeClaims (NewToken { userID := 9, email := "a@x.com", password := "h" } 86400 "secret" 0).claims)
    ∧ claimsGet (jsonDecodeClaims (NewToken { userID := 9, email := "a@x.com", password := "h" } 86400 "secret" 0).claims) "id" =
        some (.floatV 9) := by
  have h := C4_issue_validate_roundtrip
    { userID := 9, email := "a@x.com", password := "h" } 86400 0 100 "secret" (by decide)
  exact ⟨h.1, h.2.1⟩

/-- C5: the gate matches permissions case-insensitively while storage
preserves the stored casing: a required permission that lower-cases to
the same string as a granted permission of some role of the subject is
allowed, and the permission rows listed for a role are rows of the
permissions table, names unchanged. -/
theorem C5_case_insensitive_match (s : Store) (claims : MapClaims) (idc : ClaimValue)
    (required : String) (hid : claimsGet claims "id" = some idc) :
    (∀ ur ∈ s.GetRolesByUserID (extractUserID idc),
      ∀ p ∈ s.GetPermissionsByRoleID ur.roleID,
        strToLower required = strToLower p.permissionName →
        RequirePermission required s.toRoleStore claims = .callNext)
    ∧ (∀ rid : Int, ∀ p ∈ s.GetPermissionsByRoleID rid, p ∈ s.permissions) := by
  constructor
  · intro ur hur p hp heq
    rw [RequirePermission_pure s claims idc required hid]
    have hmem : strToLower required ∈ effectivePermissions s (extractUserID idc) := by
      unfold effectivePermissions
      rw [mem_resolvedPermsList]
      refine ⟨ur, hur, ?_⟩
      rw [heq]
      exact List.mem_map_of_mem _ hp
    simp [hmem]
  · intro rid p hp
    unfold Store.GetPermissionsByRoleID at hp
    rw [List.mem_flatMap] at hp
    rcases hp with ⟨rp, _, hp2⟩
    exact (List.mem_filter.mp hp2).1

/-- C5 witness: granting Teacher:View_Self to role 2 of subject 5 allows
a request requiring teacher:view_self, and the listed permission row for
role 2 keeps the stored casing. -/
theorem C5_case_insensitive_match_witness :
    RequirePermission "teacher:view_self"
        (Store.toRoleStore
          { userRoles := [{ roleID := 2, userID := 5 }],
            rolePermissions := [{ roleID := 2, permissionID := 1 }],
            permissions := [{ permissionID := 1, permissionName := "Teacher:View_Self" }] })
        [("id", ClaimValue.intV 5)] = .callNext
    ∧ Store.GetPermissionsByRoleID
        { userRoles := [{ roleID := 2, userID := 5 }],
          rolePermissions := [{ roleID := 2, permissionID := 1 }],
          permissions := [{ permissionID := 1, permissionName := "Teacher:View_Self" }] } 2 =
        [{ permissionID := 1, permissionName := "Teacher:View_Self" }] := by
  constructor
  · exact (C5_case_insensitive_match
      { userRoles := [{ roleID := 2, userID := 5 }],
        rolePermissions := [{ roleID := 2, permissionID := 1 }],
        permissions := [{ permissionID := 1, permissionName := "Teacher:View_Self" }] }
      [("id", ClaimValue.intV 5)] (ClaimValue.intV 5) "teacher:view_self" rfl).1
      { roleID := 2, userID := 5 } (by decide)
      { permissionID := 1, permissionName := "Teacher:View_Self" } (by decide) (by decide)
  · decide

/-- C6: evaluation of the gate at the failing input of the claim: claims
whose id is present but of an unexpected (non-numeric) shape are not
answered 401 unauthorized; the type switch of the source has no default
case, so the user id stays 0 and the gate proceeds to the role lookup,
here answering 403 permission denied. -/
theorem C6_unexpected_shape_not_401 :
    RequirePermission "user:list"
        (Store.toRoleStore { userRoles := [], rolePermissions := [], permissions := [] })
        [("id", ClaimValue.strV "abc")] = .respond 403 "permission denied"
    ∧ RequirePermission "user:list"
        (Store.toRoleStore { userRoles := [], rolePermissions := [], permissions := [] })
        [("id", ClaimValue.strV "abc")] ≠ .respond 401 "unauthorized" := by
  constructor
  · decide
  · decide

/-- C7: a request whose Authorization header lacks the exact Bearer
scheme (missing header or another scheme) is answered 401 by the identity
middleware immediately, with zero storage lookups performed by the rest
of the pipeline: the wrapped gate and handler never run. -/
theorem C7_non_bearer_no_storage (secret : String) (now : Int) (store : RoleStore)
    (permissionName : String) (h : AuthHeader) (hb : h.isBearer = false) :
    pipeline secret now store permissionName h =
      (.errorResp 401 "Missing or invalid Authorization header", 0) := by
  cases h with
  | missing => rfl
  | otherScheme s2 => rfl
  | bearer w => simp [AuthHeader.isBearer] at hb

/-- C7 witness: the header Basic xyz is answered 401 with zero storage
calls, whatever the storage would have answered. -/
theorem C7_non_bearer_no_storage_witness :
    pipeline "secret" 0
        { GetRolesByUserID := fun _ => .error (), GetPermissionsByRoleID := fun _ => .error () }
        "user:list" (.otherScheme "Basic xyz") =
      (.errorResp 401 "Missing or invalid Authorization header", 0) := by
  exact C7_non_bearer_no_storage "secret" 0
    { GetRolesByUserID := fun _ => .error (), GetPermissionsByRoleID := fun _ => .error () }
    "user:list" (.otherScheme "Basic xyz") rfl

/-- C8: every validation failure is answered 401, an expired token with
the message Token is expired, and every other failure (malformed token,
bad signature, keyfunc rejection, other claims failure) with a message
that differs from it, so a client can tell expiry apart from generic
invalidity. -/
theorem C8_expired_message_distinct (w : Wire) (secret : String) (now : Int) (e : JwtError)
    (hp : jwtParse w secret now = .error e) :
    JWTAuth secret now (.bearer w) =
      .httpError 401
        (if e = .tokenExpired then "Token is expired" else "Invalid token: " ++ e.text)
    ∧ (∀ e2 : JwtError, e2 ≠ .tokenExpired →
        "Invalid token: " ++ JwtError.text e2 ≠ "Token is expired") := by
  constructor
  · by_cases he : e = .tokenExpired
    · simp [JWTAuth, hp, he]
    · simp [JWTAuth, hp, he]
  · intro e2 h2
    cases e2 <;> first | exact absurd rfl h2 | decide

/-- C8 witness: a correctly signed token whose expiry 10 has passed at
time 100 is answered 401 Token is expired. -/
theorem C8_expired_message_distinct_witness :
    JWTAuth "s" 100
        (.bearer (.tok
          { alg := .HS256, claims := [("exp", ClaimValue.intV 10)],
            sig := macSign .HS256 [("exp", ClaimValue.intV 10)] "s" })) =
      .httpError 401 "Token is expired" := by
  have h :=
    (C8_expired_message_distinct
      (.tok { alg := .HS256, claims := [("exp", ClaimValue.intV 10)],
              sig := macSign .HS256 [("exp", ClaimValue.intV 10)] "s" })
      "s" 100 .tokenExpired rfl).1
  simpa using h

/-- C9: assigning an already-assigned role leaves the store unchanged
(the insert conflicts with the primary key and does nothing), both
assignments are idempotent under repetition, the same holds for granting
an already-granted permission, and consequently a duplicate assignment
never changes any resolved permission set. -/
theorem C9_assign_idempotent (s : Store) (uid rid pid u : Int) :
    (s.userRoles.any (fun ur => ur.userID == uid && ur.roleID == rid) = true →
      s.AssignRole uid rid = s)
    ∧ (s.AssignRole uid rid).AssignRole uid rid = s.AssignRole uid rid
    ∧ (s.rolePermissions.any (fun rp => rp.roleID == rid && rp.permissionID == pid) = true →
      s.AssignPermission rid pid = s)
    ∧ (s.AssignPermission rid pid).AssignPermission rid pid = s.AssignPermission rid pid
    ∧ effectivePermissions ((s.AssignRole uid rid).AssignRole uid rid) u =
        effectivePermissions (s.AssignRole uid rid) u
    ∧ effectivePermissions ((s.AssignPermission rid pid).AssignPermission rid pid) u =
        effectivePermissions (s.AssignPermission rid pid) u := by
  have key1 : ∀ s2 : Store,
      s2.userRoles.any (fun ur => ur.userID == uid && ur.roleID == rid) = true →
      s2.AssignRole uid rid = s2 := by
    intro s2 h2
    unfold Store.AssignRole
    rw [if_pos h2]
  have key2 : ∀ s2 : Store,
      s2.rolePermissions.any (fun rp => rp.roleID == rid && rp.permissionID == pid) = true →
      s2.AssignPermission rid pid = s2 := by
    intro s2 h2
    unfold Store.AssignPermission
    rw [if_pos h2]
  have mem1 : (s.AssignRole uid rid).userRoles.any
      (fun ur => ur.userID == uid && ur.roleID == rid) = true := by
    unfold Store.AssignRole
    by_cases hc : s.userRoles.any (fun ur => ur.userID == uid && ur.roleID == rid) = true
    · rw [if_pos hc]
      exact hc
    · rw [if_neg hc]
      simp
  have mem2 : (s.AssignPermission rid pid).rolePermissions.any
      (fun rp => rp.roleID == rid && rp.permissionID == pid) = true := by
    unfold Store.AssignPermission
    by_cases hc : s.rolePermissions.any
        (fun rp => rp.roleID == rid && rp.permissionID == pid) = true
    · rw [if_pos hc]
      exact hc
    · rw [if_neg hc]
      simp
  have hrole : (s.AssignRole uid rid).AssignRole uid rid = s.AssignRole uid rid :=
    key1 _ mem1
  have hperm : (s.AssignPermission rid pid).AssignPermission rid pid =
      s.AssignPermission rid pid :=
    key2 _ mem2
  exact ⟨key1 s, hrole, key2 s, hperm,
    congrArg (fun st => effectivePermissions st u) hrole,
    congrArg (fun st => effectivePermissions st u) hperm⟩

/-- C9 witness: re-assigning the already-present role 2 of subject 5
leaves the concrete store unchanged. -/
theorem C9_assign_idempotent_witness :
    Store.AssignRole
        { userRoles := [{ roleID := 2, userID := 5 }], rolePermissions := [],
          permissions := [] } 5 2 =
      { userRoles := [{ roleID := 2, userID := 5 }], rolePermissions := [],
        permissions := [] } := by
  exact (C9_assign_idempotent
    { userRoles := [{ roleID := 2, userID := 5 }], rolePermissions := [], permissions := [] }
    5 2 0 0).1 (by decide)

/-- C10: login failures are indistinguishable by cause: an unknown (or
failing-lookup) email and a known email with a non-matching password
produce the same 401 status with the same invalid-credentials body, in
any two configurations. -/
theorem C10_login_indistinguishable (us1 us2 : UserStore)
    (bc1 bc2 : String → String → Bool) (secret1 secret2 : String) (now1 now2 : Int)
    (req1 req2 : LoginRequest) (u : User)
    (h1 : us1.GetClientByEmail req1.email = .ok none ∨
          us1.GetClientByEmail req1.email = .error ())
    (h2 : us2.GetClientByEmail req2.email = .ok (some u))
    (h3 : bc2 u.password req2.password = false) :
    Login us1 bc1 secret1 now1 req1 = .failure 401 (respError "invalid credentials")
    ∧ Login us2 bc2 secret2 now2 req2 = .failure 401 (respError "invalid credentials")
    ∧ Login us1 bc1 secret1 now1 req1 = Login us2 bc2 secret2 now2 req2 := by
  have ha : Login us1 bc1 secret1 now1 req1 = .failure 401 (respError "invalid credentials") := by
    rcases h1 with h1 | h1 <;> simp [Login, h1]
  have hb : Login us2 bc2 secret2 now2 req2 = .failure 401 (respError "invalid credentials") := by
    simp [Login, h2, h3]
  exact ⟨ha, hb, by rw [ha, hb]⟩

/-- C10 witness: a login against a store that does not know the email and
a login with a wrong password for a stored user produce the identical 401
invalid-credentials response. -/
theorem C10_login_indistinguishable_witness :
    Login { GetClientByEmail := fun _ => .ok none } (fun _ _ => false) "s" 0
        { email := "a@x.com", password := "pw" } =
      .failure 401 (respError "invalid credentials")
    ∧ Login { GetClientByEmail := fun _ => .ok (some { userID := 1, email := "b@x.com", password := "hash" }) }
        (fun _ _ => false) "s" 0 { email := "b@x.com", password := "wrong" } =
      .failure 401 (respError "invalid credentials") := by
  have h := C10_login_indistinguishable
    { GetClientByEmail := fun _ => .ok none }
    { GetClientByEmail := fun _ => .ok (some { userID := 1, email := "b@x.com", password := "hash" }) }
    (fun _ _ => false) (fun _ _ => false) "s" "s" 0 0
    { email := "a@x.com", password := "pw" } { email := "b@x.com", password := "wrong" }
    { userID := 1, email := "b@x.com", password := "hash" } (Or.inl rfl) rfl rfl
  exact ⟨h.1, h.2.1⟩

end EduHelper
